import Mathlib

/-!
Verification of the autrado-bot trading system's core signal logic.

The Python source is shallowly embedded:
* pandas float arithmetic (which produces NaN / ±inf on division by zero and
  lets NaN propagate through comparisons as `False`) is modelled by `PFloat`,
  an extended-rational type with IEEE-style special values;
* pandas rolling windows (`rolling(w).mean() / .max() / .min() / .apply`)
  with the default `min_periods = window` are modelled by `rollingMeanAt`
  and friends, which yield `PFloat.nan` inside the warm-up region;
* the strategies of `src/strategies/strategies.py`, the signal detector of
  `src/live_trading/real_time_signal_example.py`, the validator of
  `src/strategies/base.py` and the backtesting bot of
  `src/backtesting/backtesting_bot.py` become explicit Lean functions, with
  Python exception handling modelled by `Option` / explicit outcome types.
-/

/-- Extended rationals modelling pandas/numpy float64 special values.
`fin q` is a finite value (exact arithmetic; the claims under study only
depend on exactly representable values), `nan` models NaN, `inf`/`ninf`
model the signed infinities. -/
inductive PFloat where
  | nan : PFloat
  | inf : PFloat
  | ninf : PFloat
  | fin : ℚ → PFloat
deriving DecidableEq, Repr

namespace PFloat

/-- IEEE-style addition: NaN absorbs, `inf + ninf = nan`. -/
def padd : PFloat → PFloat → PFloat
  | nan, _ => nan
  | _, nan => nan
  | inf, ninf => nan
  | inf, _ => inf
  | ninf, inf => nan
  | ninf, _ => ninf
  | fin _, inf => inf
  | fin _, ninf => ninf
  | fin a, fin b => fin (a + b)

/-- IEEE-style negation. -/
def pneg : PFloat → PFloat
  | nan => nan
  | inf => ninf
  | ninf => inf
  | fin a => fin (-a)

/-- IEEE-style subtraction. -/
def psub (a b : PFloat) : PFloat := padd a (pneg b)

/-- IEEE-style multiplication (`0 * inf = nan`). -/
def pmul : PFloat → PFloat → PFloat
  | nan, _ => nan
  | _, nan => nan
  | inf, inf => inf
  | inf, ninf => ninf
  | ninf, inf => ninf
  | ninf, ninf => inf
  | inf, fin b => if b = 0 then nan else if 0 < b then inf else ninf
  | ninf, fin b => if b = 0 then nan else if 0 < b then ninf else inf
  | fin a, inf => if a = 0 then nan else if 0 < a then inf else ninf
  | fin a, ninf => if a = 0 then nan else if 0 < a then ninf else inf
  | fin a, fin b => fin (a * b)

/-- IEEE-style division: `x / 0` is a signed infinity for `x ≠ 0` and NaN
for `0 / 0`; a finite value divided by an infinity is `0`. -/
def pdiv : PFloat → PFloat → PFloat
  | nan, _ => nan
  | _, nan => nan
  | inf, inf => nan
  | inf, ninf => nan
  | ninf, inf => nan
  | ninf, ninf => nan
  | inf, fin b => if b < 0 then ninf else inf
  | ninf, fin b => if b < 0 then inf else ninf
  | fin _, inf => fin 0
  | fin _, ninf => fin 0
  | fin a, fin b =>
      if b = 0 then (if a = 0 then nan else if 0 < a then inf else ninf)
      else fin (a / b)

/-- IEEE-style absolute value. -/
def pabs : PFloat → PFloat
  | nan => nan
  | inf => inf
  | ninf => inf
  | fin a => fin |a|

/-- Strict `<` comparison: any comparison involving NaN is `false`. -/
def plt : PFloat → PFloat → Bool
  | nan, _ => false
  | _, nan => false
  | inf, _ => false
  | _, inf => true
  | ninf, ninf => false
  | ninf, _ => true
  | _, ninf => false
  | fin a, fin b => decide (a < b)

/-- Non-strict `≤` comparison: any comparison involving NaN is `false`. -/
def ple : PFloat → PFloat → Bool
  | nan, _ => false
  | _, nan => false
  | _, inf => true
  | inf, _ => false
  | ninf, _ => true
  | _, ninf => false
  | fin a, fin b => decide (a ≤ b)

/-- Strict `>` comparison. -/
def pgt (a b : PFloat) : Bool := plt b a

/-- Non-strict `≥` comparison. -/
def pge (a b : PFloat) : Bool := ple b a

/-- Python's binary `min`: returns the second argument when it compares
strictly below the first, else the first (so `min(nan, x) = nan`). -/
def pmin (a b : PFloat) : PFloat := if plt b a then b else a

lemma plt_nan_left (y : PFloat) : plt nan y = false := by cases y <;> rfl

lemma plt_nan_right (x : PFloat) : plt x nan = false := by cases x <;> rfl

lemma ple_nan_left (y : PFloat) : ple nan y = false := by cases y <;> rfl

lemma ple_nan_right (x : PFloat) : ple x nan = false := by cases x <;> rfl

lemma plt_fin_fin (a b : ℚ) : plt (fin a) (fin b) = decide (a < b) := rfl

lemma ple_fin_fin (a b : ℚ) : ple (fin a) (fin b) = decide (a ≤ b) := rfl

end PFloat

open PFloat

/-! ## Rolling-window primitives (pandas `rolling` with default `min_periods`) -/

/-- The window of the last `w` entries of `xs` ending at index `i`
(both inclusive): entries `i+1-w .. i`. -/
def windowAt (xs : List ℚ) (w i : Nat) : List ℚ :=
  (xs.take (i + 1)).drop (i + 1 - w)

/-- Maximum of a rational list (`0` on the empty list, which callers never
reach: every use is guarded by a full-window check). -/
def listMax : List ℚ → ℚ
  | [] => 0
  | x :: xs => xs.foldl max x

/-- Minimum of a rational list. -/
def listMin : List ℚ → ℚ
  | [] => 0
  | x :: xs => xs.foldl min x

/-- `series.rolling(w).mean()` evaluated at index `i`: NaN until a full
window of `w` observations is available, else the window's arithmetic mean. -/
def rollingMeanAt (xs : List ℚ) (w i : Nat) : PFloat :=
  if i < xs.length ∧ 0 < w ∧ w ≤ i + 1 then .fin ((windowAt xs w i).sum / w)
  else .nan

/-- `series.rolling(w).max()` evaluated at index `i`. -/
def rollingMaxAt (xs : List ℚ) (w i : Nat) : PFloat :=
  if i < xs.length ∧ 0 < w ∧ w ≤ i + 1 then .fin (listMax (windowAt xs w i))
  else .nan

/-- `series.rolling(w).min()` evaluated at index `i`. -/
def rollingMinAt (xs : List ℚ) (w i : Nat) : PFloat :=
  if i < xs.length ∧ 0 < w ∧ w ≤ i + 1 then .fin (listMin (windowAt xs w i))
  else .nan

/-- `series.rolling(w).apply(f)` evaluated at index `i`. -/
def rollingApplyAt (xs : List ℚ) (w i : Nat) (f : List ℚ → PFloat) : PFloat :=
  if i < xs.length ∧ 0 < w ∧ w ≤ i + 1 then f (windowAt xs w i)
  else .nan

/-! ## RSI (`calculate_rsi` in `src/strategies/base.py` and
`SignalDetector.calculate_rsi` in `real_time_signal_example.py`; the two
function bodies are identical) -/

/-- Consecutive differences `x[i+1] - x[i]` (the defined entries of
`prices.diff()`; the leading NaN of `diff` is handled by the callers). -/
def diffs (xs : List ℚ) : List ℚ :=
  List.zipWith (fun b a => b - a) xs.tail xs

/-- `delta.where(delta > 0, 0)`: the leading NaN of `diff` fails the
`> 0` test and becomes `0`; positive changes are kept, others become `0`. -/
def gainSeries (p : List ℚ) : List ℚ :=
  match p with
  | [] => []
  | _ :: _ => 0 :: (diffs p).map (fun d => if 0 < d then d else 0)

/-- `(-delta.where(delta < 0, 0))`: negative changes, negated. -/
def lossSeries (p : List ℚ) : List ℚ :=
  match p with
  | [] => []
  | _ :: _ => 0 :: (diffs p).map (fun d => if d < 0 then -d else 0)

/-- `calculate_rsi(prices, period)` evaluated at index `i`:
`100 - 100/(1 + rs)` with `rs = avg_gain / avg_loss`, where the averages
are rolling means of `gainSeries` / `lossSeries` and the arithmetic is
pandas float arithmetic (`PFloat`). -/
def calculateRsiAt (prices : List ℚ) (period i : Nat) : PFloat :=
  psub (.fin 100) (pdiv (.fin 100) (padd (.fin 1)
    (pdiv (rollingMeanAt (gainSeries prices) period i)
          (rollingMeanAt (lossSeries prices) period i))))

/-! ## Strategies (`src/strategies/strategies.py`) -/

/-- A strategy decision for one bar (`self.buy()`, `self.sell()`, or
falling through both branches of `next`). -/
inductive TradeAction where
  | buy : TradeAction
  | sell : TradeAction
  | hold : TradeAction
deriving DecidableEq, Repr

/-- `backtesting.lib.crossover(s1, s2)` at bar `t`:
`s1[-2] < s2[-2] and s1[-1] > s2[-1]`, `False` when fewer than two values
are visible (the library catches the `IndexError`). -/
def crossoverB (s1 s2 : Nat → PFloat) (t : Nat) : Bool :=
  decide (t ≠ 0) && plt (s1 (t - 1)) (s2 (t - 1)) && pgt (s1 t) (s2 t)

/-- `TrendFollowing.next` at bar `t`: buy on the short MA crossing above
the long MA, sell on the opposite cross. -/
def tfNext (sm lm : Nat) (closes : List ℚ) (t : Nat) : TradeAction :=
  if crossoverB (rollingMeanAt closes sm) (rollingMeanAt closes lm) t then .buy
  else if crossoverB (rollingMeanAt closes lm) (rollingMeanAt closes sm) t then .sell
  else .hold

/-- The rolling-apply body of `RSIStrategy.init`: over one full window,
`100 - 100/(1 + gain_mean / loss_mean)` where the means are taken over the
window's internal differences (`data.diff()` has a leading NaN, `clip`
keeps it, and pandas `mean()` skips NaN — so the mean ranges over the
`w - 1` defined differences, and is NaN for an empty collection). -/
def rsiApplyWindow (w : List ℚ) : PFloat :=
  let d := diffs w
  let g := if d = [] then PFloat.nan else .fin ((d.map (fun x => max x 0)).sum / d.length)
  let l := if d = [] then PFloat.nan else .fin ((d.map (fun x => |min x 0|)).sum / d.length)
  psub (.fin 100) (pdiv (.fin 100) (padd (.fin 1) (pdiv g l)))

/-- `RSIStrategy`'s indicator: `Close.rolling(rsi_period).apply(...)`. -/
def rsiIndicatorAt (closes : List ℚ) (period i : Nat) : PFloat :=
  rollingApplyAt closes period i rsiApplyWindow

/-- `RSIStrategy.next` at bar `t` with position flag `pos`:
buy when RSI is below the lower threshold and flat, sell when RSI is above
the upper threshold and in a position. -/
def rsiStrategyNext (period : Nat) (lower upper : ℚ) (pos : Bool)
    (closes : List ℚ) (t : Nat) : TradeAction :=
  if plt (rsiIndicatorAt closes period t) (.fin lower) && !pos then .buy
  else if pgt (rsiIndicatorAt closes period t) (.fin upper) && pos then .sell
  else .hold

/-- `DualMovingAverageStrategy.next` at bar `t`: buy when the fast SMA is
above the slow SMA now and was not above it one bar ago; sell on the
mirrored condition. -/
def dualMANext (fa sl : Nat) (closes : List ℚ) (t : Nat) : TradeAction :=
  let f := rollingMeanAt closes fa
  let s := rollingMeanAt closes sl
  if pgt (f t) (s t) && ple (f (t - 1)) (s (t - 1)) then .buy
  else if plt (f t) (s t) && pge (f (t - 1)) (s (t - 1)) then .sell
  else .hold

/-- `BreakoutStrategy.next` at bar `t` with position flag `pos`:
`self.upper[-2]` / `self.lower[-2]` are the rolling `period`-bar high of
the highs and low of the lows evaluated at index `t - 1`. -/
def breakoutNext (period : Nat) (pos : Bool)
    (highs lows closes : List ℚ) (t : Nat) : TradeAction :=
  if pgt (.fin (closes.getD t 0)) (rollingMaxAt highs period (t - 1)) && !pos then .buy
  else if plt (.fin (closes.getD t 0)) (rollingMinAt lows period (t - 1)) && pos then .sell
  else .hold

/-! ## Signal detector (`src/live_trading/real_time_signal_example.py`) -/

/-- The three categorical signal values `'BUY'`, `'SELL'`, `'HOLD'`. -/
inductive Signal where
  | buySig : Signal
  | sellSig : Signal
  | holdSig : Signal
deriving DecidableEq, Repr

/-- The mutable attributes of a strategy class, as read and written by
`SignalDetector` (`hasattr` = `isSome`; `setattr` overwrites the field).
All detectors built over the same strategy class share one such record. -/
structure ClassAttrs where
  short_ma : Option Nat
  long_ma : Option Nat
  rsi_period : Option Nat
  rsi_upper : Option ℚ
  rsi_lower : Option ℚ
deriving DecidableEq, Repr

/-- A parameter dict handed to `SignalDetector.__init__`; a `some` field is
a key present in the dict. -/
structure Params where
  short_ma : Option Nat
  long_ma : Option Nat
  rsi_period : Option Nat
  rsi_upper : Option ℚ
  rsi_lower : Option ℚ
deriving DecidableEq, Repr

/-- One `setattr`: the parameter value, when present, overwrites the class
attribute. -/
def overrideO {α : Type} (p c : Option α) : Option α :=
  match p with
  | some v => some v
  | none => c

/-- `SignalDetector.__init__`: iterates the parameter dict and does
`setattr(self.strategy_class, key, value)` for each entry, returning the
strategy class's updated (shared) attribute record. -/
def initDetector (p : Params) (c : ClassAttrs) : ClassAttrs :=
  ⟨overrideO p.short_ma c.short_ma, overrideO p.long_ma c.long_ma,
   overrideO p.rsi_period c.rsi_period, overrideO p.rsi_upper c.rsi_upper,
   overrideO p.rsi_lower c.rsi_lower⟩

/-- The OHLCV frame columns the detector reads. -/
structure MarketData where
  close : List ℚ
  volume : List ℚ
deriving DecidableEq, Repr

/-- The RSI fallthrough of `SignalDetector.get_signal_state`: when the
class has `rsi_upper` and `rsi_lower` attributes, compare
`calculate_rsi(Close, 14)` at the last bar against them. -/
def rsiBranch (cls : ClassAttrs) (data : MarketData) : Signal :=
  match cls.rsi_upper, cls.rsi_lower with
  | some up, some lo =>
    let r := calculateRsiAt data.close 14 (data.close.length - 1)
    if plt r (.fin lo) then .buySig
    else if pgt r (.fin up) then .sellSig
    else .holdSig
  | _, _ => .holdSig

/-- `SignalDetector.get_signal_state`: `HOLD` on fewer than 100 rows; else
the moving-average cross check at the last two bars when the class has
`short_ma` and `long_ma` attributes, falling through to the RSI check. -/
def getSignalState (cls : ClassAttrs) (data : MarketData) : Signal :=
  if data.close.length < 100 then .holdSig
  else
    match cls.short_ma, cls.long_ma with
    | some sm, some lm =>
      let n := data.close.length
      let s := rollingMeanAt data.close sm
      let l := rollingMeanAt data.close lm
      if pgt (s (n - 1)) (l (n - 1)) && ple (s (n - 2)) (l (n - 2)) then .buySig
      else if plt (s (n - 1)) (l (n - 1)) && pge (s (n - 2)) (l (n - 2)) then .sellSig
      else rsiBranch cls data
    | _, _ => rsiBranch cls data

/-- `SignalDetector.calculate_confidence`: volume-ratio and trend-strength
heuristic; any indexing failure (too little data) is caught and yields
`0.5`. -/
def calculateConfidence (data : MarketData) : PFloat :=
  if data.volume.length = 0 ∨ data.close.length < 5 then .fin (1 / 2)
  else
    let avgVolume := rollingMeanAt data.volume 20 (data.volume.length - 1)
    let currentVolume : PFloat := .fin (data.volume.getD (data.volume.length - 1) 0)
    let volumeConfidence := pdiv (pmin (pdiv currentVolume avgVolume) (.fin 2)) (.fin 2)
    let c1 : ℚ := data.close.getD (data.close.length - 1) 0
    let c5 : ℚ := data.close.getD (data.close.length - 5) 0
    let priceChange := pdiv (.fin (c1 - c5)) (.fin c5)
    let trendConfidence := pmin (pmul (pabs priceChange) (.fin 10)) (.fin 1)
    pdiv (padd volumeConfidence trendConfidence) (.fin 2)

/-- The emitted `signal_info` dict. -/
structure SignalEvent where
  action : Signal
  price : ℚ
  timestamp : Nat
  confidence : PFloat
deriving DecidableEq, Repr

/-- The per-detector-instance state: only `last_signal`
(`None` initially, a signal string once an event has fired). -/
structure DetectorState where
  last_signal : Option Signal
deriving DecidableEq, Repr

/-- `SignalDetector.check_signal`: compute the current signal; when it
differs from `last_signal` and is not `HOLD`, build the event, store the
signal and return it; otherwise return `None` and leave the state alone. -/
def checkSignal (cls : ClassAttrs) (st : DetectorState) (data : MarketData)
    (now : Nat) : Option SignalEvent × DetectorState :=
  let cur := getSignalState cls data
  if some cur ≠ st.last_signal ∧ cur ≠ .holdSig then
    (some ⟨cur, data.close.getD (data.close.length - 1) 0, now,
           calculateConfidence data⟩,
     ⟨some cur⟩)
  else (none, st)

/-- A sequence of `check_signal` calls against one detector instance,
threading `last_signal`; `now` is the call index. -/
def runCalls (cls : ClassAttrs) (st : DetectorState) :
    List MarketData → List (Option SignalEvent) × DetectorState
  | [] => ([], st)
  | d :: rest =>
    let r := checkSignal cls st d 0
    let t := runCalls cls r.2 rest
    (r.1 :: t.1, t.2)

/-! ## Parameter validation (`StrategyValidator.validate_params` in
`src/strategies/base.py`) and the backtesting bot
(`src/backtesting/backtesting_bot.py`) -/

/-- One declared parameter range: the optional `'min'` / `'max'` keys. -/
structure ParamRange where
  pmin : Option ℚ
  pmax : Option ℚ
deriving DecidableEq, Repr

/-- The loop body of `validate_params` for one supplied parameter: when
the parameter appears in the declared ranges, append an error for a
violated `'min'` and for a violated `'max'` bound.  (The Korean message
text is abbreviated to the parameter name plus a tag.) -/
def vStep (ranges : List (String × ParamRange)) (errs : List String)
    (pv : String × ℚ) : List String :=
  match ranges.lookup pv.1 with
  | some r =>
    let errs2 :=
      match r.pmin with
      | some m => if pv.2 < m then errs ++ [pv.1 ++ ": below min"] else errs
      | none => errs
    match r.pmax with
    | some m => if m < pv.2 then errs2 ++ [pv.1 ++ ": above max"] else errs2
    | none => errs2
  | none => errs

/-- `StrategyValidator.validate_params(strategy_class, params)`: fold the
supplied parameters over the declared ranges, starting from an empty
error list. -/
def validateParams (ranges : List (String × ParamRange))
    (params : List (String × ℚ)) : List String :=
  params.foldl (vStep ranges) []

/-- `BaseStrategy.get_param_ranges()` returns the empty dict, and no
strategy class in the repository overrides it. -/
def baseParamRanges : List (String × ParamRange) := []

/-- The min/max bounds that the `STRATEGIES` metadata dictionary in
`src/strategies/strategies.py` declares for `TrendFollowing`
(`short_ma`: 5..100, `long_ma`: 50..300).  `validate_params` never reads
this dictionary. -/
def trendFollowingDeclaredBounds : List (String × ParamRange) :=
  [("short_ma", ⟨some 5, some 100⟩), ("long_ma", ⟨some 50, some 300⟩)]

/-- `BacktestingBot.run_backtest`: sets `TrendFollowing.short_ma` and
`TrendFollowing.long_ma` to the given values (no validation of any kind),
raises on empty data (the surrounding `try` turns this into `None`), and
otherwise runs the backtest — modelled here as the strategy's decision
evaluated at every bar of the series.  Returns the per-bar decisions. -/
def runBacktest (sm lm : Nat) (data : List ℚ) : Option (List TradeAction) :=
  if data = [] then none
  else some ((List.range data.length).map (fun t => tfNext sm lm data t))

/-! ## Monitor loop (`RealTimeMonitor` in `real_time_signal_example.py`) -/

/-- The outcome of running one Python call that may raise: either a value
or a raised exception. -/
inductive PyResult (α : Type) where
  | ok : α → PyResult α
  | exn : PyResult α
deriving DecidableEq, Repr

/-- One alert transport attempt inside its own `try`/`except`: records
whether the `send_signal_alert` call succeeded; a raised exception is
logged and absorbed. -/
def attemptTransport {σ : Type} (tr : σ → PyResult Unit) (signals : σ) : Bool :=
  match tr signals with
  | .ok _ => true
  | .exn => false

/-- `RealTimeMonitor.send_alerts`: each registered alert transport is
invoked inside its own `try`/`except`, so every transport is attempted;
the returned list records, per transport in order, whether it succeeded. -/
def sendAlerts {σ : Type} (transports : List (σ → PyResult Unit))
    (signals : σ) : List Bool :=
  transports.map (fun tr => attemptTransport tr signals)

/-- What one iteration of the ticker loop in
`RealTimeMonitor.run_single_check` produced. -/
inductive TickerOutcome where
  /-- The per-ticker `except` caught an exception; the loop logged and
  continued. -/
  | caught : TickerOutcome
  /-- No signals were found; no alerts sent. -/
  | noSignals : TickerOutcome
  /-- Signals were found; records each transport's success flag. -/
  | alerted : List Bool → TickerOutcome
deriving DecidableEq, Repr

/-- The body of one ticker iteration of `run_single_check`: check the
ticker's signals (any exception is caught by the per-ticker handler), and
send alerts when any signal fired. -/
def runTickerStep {σ : Type} (check : String → PyResult (List σ))
    (transports : List (List σ → PyResult Unit)) (ticker : String) :
    TickerOutcome :=
  match check ticker with
  | .exn => .caught
  | .ok sigs =>
    match sigs with
    | [] => .noSignals
    | _ :: _ => .alerted (sendAlerts transports sigs)

/-- `RealTimeMonitor.run_single_check`: iterate the configured tickers,
each wrapped in `try`/`except`, collecting each ticker's outcome. -/
def runSingleCheck {σ : Type} (check : String → PyResult (List σ))
    (transports : List (List σ → PyResult Unit)) :
    List String → List TickerOutcome
  | [] => []
  | tk :: rest =>
    runTickerStep check transports tk :: runSingleCheck check transports rest

/-- How one monitoring cycle of `run_continuous_monitoring` ends. -/
inductive CycleOutcome where
  /-- The cycle and its sleep completed normally. -/
  | okCycle : CycleOutcome
  /-- A `KeyboardInterrupt` was raised (external cancellation). -/
  | cancelled : CycleOutcome
  /-- Some other exception was raised during the cycle. -/
  | raised : CycleOutcome
deriving DecidableEq, Repr

/-- One iteration of the `while True` loop in
`run_continuous_monitoring`: returns `none` when the loop breaks, or
`some d` when it continues after sleeping `d` seconds (`update_interval`
after a normal cycle, the fixed 60-second recovery sleep after a caught
exception). -/
def loopStep (interval : Nat) : CycleOutcome → Option Nat
  | .okCycle => some interval
  | .cancelled => none
  | .raised => some 60

/-- The monitoring loop driven by a finite prefix of cycle outcomes:
returns the number of iterations executed and whether the loop exited
(rather than still running when the prefix was exhausted). -/
def runLoop (interval : Nat) : List CycleOutcome → Nat × Bool
  | [] => (0, false)
  | o :: rest =>
    match loopStep interval o with
    | none => (1, true)
    | some _ =>
      let r := runLoop interval rest
      (r.1 + 1, r.2)

/-! ## Concrete series used by the scenario theorems -/

/-- 100 bars: flat at 100 for 98 bars, then 80, then 130 — an upward
cross of the 2-bar mean over the 3-bar mean at the final bar. -/
def buyCloses : List ℚ := List.replicate 98 100 ++ [80, 130]

/-- 100 constant bars. -/
def flatCloses : List ℚ := List.replicate 100 100

/-- Constant unit volume. -/
def unitVolume : List ℚ := List.replicate 100 1

/-- Market data satisfying the BUY condition of a 2/3 MA-cross class. -/
def buyData : MarketData := ⟨buyCloses, unitVolume⟩

/-- Market data on which every signal check yields HOLD. -/
def holdData : MarketData := ⟨flatCloses, unitVolume⟩

/-- A strategy class configured with `short_ma = 2`, `long_ma = 3`. -/
def clsMA23 : ClassAttrs := ⟨some 2, some 3, none, none, none⟩

/-- A bare strategy class: no signal attributes set. -/
def clsNone : ClassAttrs := ⟨none, none, none, none, none⟩

/-- 16 constant prices (a flat segment longer than the RSI warm-up). -/
def constPrices : List ℚ := List.replicate 16 100

/-- 16 strictly increasing prices. -/
def upPrices : List ℚ := (List.range 16).map (fun n => (n : ℚ))

/-! ## Helper lemmas -/

lemma rollingMeanAt_nan_of_short (xs : List ℚ) (w i : Nat) (h : i + 1 < w) :
    rollingMeanAt xs w i = .nan := by
  unfold rollingMeanAt
  rw [if_neg]
  rintro ⟨-, -, h3⟩
  omega

lemma rollingMeanAt_fin (xs : List ℚ) (w i : Nat) (h1 : i < xs.length)
    (h2 : 0 < w) (h3 : w ≤ i + 1) :
    rollingMeanAt xs w i = .fin ((windowAt xs w i).sum / w) :=
  if_pos ⟨h1, h2, h3⟩

lemma rollingApplyAt_nan_of_short (xs : List ℚ) (w i : Nat) (f : List ℚ → PFloat)
    (h : i + 1 < w) : rollingApplyAt xs w i f = .nan := by
  unfold rollingApplyAt
  rw [if_neg]
  rintro ⟨-, -, h3⟩
  omega

lemma rollingMaxAt_nan_of_short (xs : List ℚ) (w i : Nat) (h : i + 1 < w) :
    rollingMaxAt xs w i = .nan := by
  unfold rollingMaxAt
  rw [if_neg]
  rintro ⟨-, -, h3⟩
  omega

lemma rollingMaxAt_fin (xs : List ℚ) (w i : Nat) (h1 : i < xs.length)
    (h2 : 0 < w) (h3 : w ≤ i + 1) :
    rollingMaxAt xs w i = .fin (listMax (windowAt xs w i)) :=
  if_pos ⟨h1, h2, h3⟩

lemma rollingMinAt_nan_of_short (xs : List ℚ) (w i : Nat) (h : i + 1 < w) :
    rollingMinAt xs w i = .nan := by
  unfold rollingMinAt
  rw [if_neg]
  rintro ⟨-, -, h3⟩
  omega

lemma rollingMinAt_fin (xs : List ℚ) (w i : Nat) (h1 : i < xs.length)
    (h2 : 0 < w) (h3 : w ≤ i + 1) :
    rollingMinAt xs w i = .fin (listMin (windowAt xs w i)) :=
  if_pos ⟨h1, h2, h3⟩

/-! ## Claim theorems -/

/-- C1: `SignalDetector.check_signal` returns a `SignalEvent` (action,
price, timestamp, confidence) if and only if the signal computed for the
call's data differs from the stored `last_signal` and is not `HOLD`; and
five consecutive calls whose data satisfy the same BUY condition return an
event exactly on the first call and `None` on the following four. -/
theorem c1_check_signal_emits_iff_new_non_hold :
    (∀ (cls : ClassAttrs) (st : DetectorState) (data : MarketData) (now : Nat),
      ((checkSignal cls st data now).1.isSome = true ↔
        (some (getSignalState cls data) ≠ st.last_signal ∧
         getSignalState cls data ≠ .holdSig)))
    ∧ ((runCalls clsMA23 ⟨none⟩ [buyData, buyData, buyData, buyData, buyData]).1.map
        (Option.map SignalEvent.action)) = [some .buySig, none, none, none, none] := by
  constructor
  · intro cls st data now
    by_cases h : (some (getSignalState cls data) ≠ st.last_signal ∧
        getSignalState cls data ≠ Signal.holdSig)
    · simp [checkSignal, h]
    · simp [checkSignal, if_neg h, h]
  · with_unfolding_all rfl

/-- C10: whenever `check_signal` returns `None` the detector state is
unchanged; `last_signal` is assigned (to the computed signal) only on
calls that return an event; and a BUY condition, HOLD bars, then the same
BUY condition again emits no second event. -/
theorem c10_check_signal_frame :
    (∀ (cls : ClassAttrs) (st : DetectorState) (data : MarketData) (now : Nat),
        (checkSignal cls st data now).1 = none → (checkSignal cls st data now).2 = st)
    ∧ (∀ (cls : ClassAttrs) (st : DetectorState) (data : MarketData) (now : Nat)
        (ev : SignalEvent) (st2 : DetectorState),
        checkSignal cls st data now = (some ev, st2) →
        st2.last_signal = some (getSignalState cls data))
    ∧ ((runCalls clsMA23 ⟨none⟩ [buyData, holdData, holdData, buyData]).1.map
        (Option.map SignalEvent.action)) = [some .buySig, none, none, none] := by
  refine ⟨?_, ?_, by with_unfolding_all rfl⟩
  · intro cls st data now hnone
    by_cases h : (some (getSignalState cls data) ≠ st.last_signal ∧
        getSignalState cls data ≠ Signal.holdSig)
    · simp [checkSignal, h] at hnone
    · simp [checkSignal, if_neg h]
  · intro cls st data now ev st2 heq
    by_cases h : (some (getSignalState cls data) ≠ st.last_signal ∧
        getSignalState cls data ≠ Signal.holdSig)
    · simp only [checkSignal, if_pos h, Prod.mk.injEq] at heq
      rw [← heq.2]
    · simp [checkSignal, if_neg h] at heq

theorem c10_check_signal_frame_witness :
    (checkSignal clsMA23 ⟨some .buySig⟩ buyData 0).2 = ⟨some .buySig⟩ ∧
    (DetectorState.mk (some .buySig)).last_signal =
      some (getSignalState clsMA23 buyData) :=
  ⟨c10_check_signal_frame.1 clsMA23 ⟨some .buySig⟩ buyData 0 (by with_unfolding_all rfl),
   c10_check_signal_frame.2.1 clsMA23 ⟨none⟩ buyData 0
     ⟨.buySig, 130, 0, .fin (3 / 4)⟩ ⟨some .buySig⟩ (by with_unfolding_all rfl)⟩

/-- C9: one iteration of the monitoring loop exits only on the external
cancellation (`KeyboardInterrupt`); a caught unexpected exception is
followed by the fixed 60-second recovery sleep and the loop continues; the
loop driven by any finite outcome sequence has exited if and only if a
cancellation occurred in it. -/
theorem c9_loop_survives_exceptions :
    (∀ (interval : Nat) (o : CycleOutcome),
        loopStep interval o = none ↔ o = .cancelled)
    ∧ (∀ interval : Nat, loopStep interval .raised = some 60)
    ∧ (∀ (interval : Nat) (outcomes : List CycleOutcome),
        (runLoop interval outcomes).2 = true ↔ .cancelled ∈ outcomes) := by
  refine ⟨?_, fun _ => rfl, ?_⟩
  · intro interval o
    cases o <;> simp [loopStep]
  · intro interval outcomes
    induction outcomes with
    | nil => simp [runLoop]
    | cons o rest ih =>
      cases o <;> simp [runLoop, loopStep, ih]

/-- C8: within one cycle, every configured ticker is attempted and a
failure (raised exception) at one ticker leaves the outcomes of the other
tickers unchanged; likewise every registered alert transport is attempted
and one transport's failure leaves the other transports' attempts
unchanged. -/
theorem c8_failure_isolation :
    (∀ (σ : Type) (check : String → PyResult (List σ))
        (transports : List (List σ → PyResult Unit)) (tickers : List String),
        (runSingleCheck check transports tickers).length = tickers.length)
    ∧ (∀ (σ : Type) (check : String → PyResult (List σ))
        (transports : List (List σ → PyResult Unit))
        (pre : List String) (tk : String) (post : List String),
        runSingleCheck check transports (pre ++ tk :: post) =
          runSingleCheck check transports pre ++
            runTickerStep check transports tk ::
              runSingleCheck check transports post)
    ∧ (∀ (σ : Type) (transports : List (σ → PyResult Unit)) (signals : σ),
        (sendAlerts transports signals).length = transports.length)
    ∧ (∀ (σ : Type) (pre : List (σ → PyResult Unit)) (tr : σ → PyResult Unit)
        (post : List (σ → PyResult Unit)) (signals : σ),
        sendAlerts (pre ++ tr :: post) signals =
          sendAlerts pre signals ++
            attemptTransport tr signals :: sendAlerts post signals) := by
  refine ⟨?_, ?_, ?_, ?_⟩
  · intro σ check transports tickers
    induction tickers with
    | nil => rfl
    | cons tk rest ih => simp [runSingleCheck, ih]
  · intro σ check transports pre tk post
    induction pre with
    | nil => rfl
    | cons x rest ih => simp [runSingleCheck, ih]
  · intro σ transports signals
    simp [sendAlerts]
  · intro σ pre tr post signals
    simp [sendAlerts]

/-- C4: decisions inside the indicator warm-up region are always HOLD —
for `RSIStrategy` (indicator NaN before a full `rsi_period` window), for
`DualMovingAverageStrategy` and `TrendFollowing` (an SMA still NaN), for
`BreakoutStrategy` (prior-window rolling high/low still NaN), and for the
live `SignalDetector`, which returns `'HOLD'` whenever the supplied window
has fewer than 100 rows. -/
theorem c4_warmup_hold :
    (∀ (period : Nat) (lower upper : ℚ) (pos : Bool) (closes : List ℚ) (t : Nat),
        t + 1 < period → rsiStrategyNext period lower upper pos closes t = .hold)
    ∧ (∀ (fa sl : Nat) (closes : List ℚ) (t : Nat),
        t + 1 < max fa sl → dualMANext fa sl closes t = .hold)
    ∧ (∀ (sm lm : Nat) (closes : List ℚ) (t : Nat),
        t + 1 < max sm lm → tfNext sm lm closes t = .hold)
    ∧ (∀ (period : Nat) (pos : Bool) (highs lows closes : List ℚ) (t : Nat),
        2 ≤ period → t < period → breakoutNext period pos highs lows closes t = .hold)
    ∧ (∀ (cls : ClassAttrs) (data : MarketData),
        data.close.length < 100 → getSignalState cls data = .holdSig) := by
  refine ⟨?_, ?_, ?_, ?_, ?_⟩
  · intro period lower upper pos closes t h
    have hrsi : rsiIndicatorAt closes period t = .nan :=
      rollingApplyAt_nan_of_short _ _ _ _ h
    simp [rsiStrategyNext, hrsi, pgt, plt_nan_left, plt_nan_right]
  · intro fa sl closes t h
    rcases lt_max_iff.mp h with hf | hs
    · have : rollingMeanAt closes fa t = .nan := rollingMeanAt_nan_of_short _ _ _ hf
      simp [dualMANext, this, pgt, plt_nan_left, plt_nan_right]
    · have : rollingMeanAt closes sl t = .nan := rollingMeanAt_nan_of_short _ _ _ hs
      simp [dualMANext, this, pgt, plt_nan_left, plt_nan_right]
  · intro sm lm closes t h
    rcases lt_max_iff.mp h with hf | hs
    · have : rollingMeanAt closes sm t = .nan := rollingMeanAt_nan_of_short _ _ _ hf
      simp [tfNext, crossoverB, this, pgt, plt_nan_left, plt_nan_right]
    · have : rollingMeanAt closes lm t = .nan := rollingMeanAt_nan_of_short _ _ _ hs
      simp [tfNext, crossoverB, this, pgt, plt_nan_left, plt_nan_right]
  · intro period pos highs lows closes t h2 hlt
    have hup : rollingMaxAt highs period (t - 1) = .nan :=
      rollingMaxAt_nan_of_short _ _ _ (by omega)
    have hlo : rollingMinAt lows period (t - 1) = .nan :=
      rollingMinAt_nan_of_short _ _ _ (by omega)
    simp [breakoutNext, hup, hlo, pgt, plt_nan_left, plt_nan_right]
  · intro cls data h
    unfold getSignalState
    rw [if_pos h]

theorem c4_warmup_hold_witness :
    rsiStrategyNext 14 30 70 false constPrices 5 = .hold ∧
    dualMANext 10 30 buyCloses 3 = .hold ∧
    tfNext 50 200 buyCloses 10 = .hold ∧
    breakoutNext 20 false buyCloses buyCloses buyCloses 5 = .hold ∧
    getSignalState clsMA23 ⟨constPrices, constPrices⟩ = .holdSig :=
  ⟨c4_warmup_hold.1 14 30 70 false constPrices 5 (by omega),
   c4_warmup_hold.2.1 10 30 buyCloses 3 (by decide),
   c4_warmup_hold.2.2.1 50 200 buyCloses 10 (by decide),
   c4_warmup_hold.2.2.2.1 20 false buyCloses buyCloses buyCloses 5 (by omega) (by omega),
   c4_warmup_hold.2.2.2.2 clsMA23 ⟨constPrices, constPrices⟩ (by simp [constPrices])⟩

/-- C5: past warm-up, `DualMovingAverageStrategy` buys at bar `t` exactly
when the fast SMA is above the slow SMA at `t` and was not above it at
`t - 1`, sells exactly on the mirrored condition, and holds otherwise
(the SMAs written out as window means). -/
theorem c5_dual_ma_cross_iff :
    ∀ (fa sl : Nat) (closes : List ℚ) (t : Nat),
      0 < fa → fa ≤ sl → sl ≤ t → t < closes.length →
      ((dualMANext fa sl closes t = .buy ↔
        ((windowAt closes sl t).sum / sl < (windowAt closes fa t).sum / fa ∧
         (windowAt closes fa (t - 1)).sum / fa ≤ (windowAt closes sl (t - 1)).sum / sl))
      ∧ (dualMANext fa sl closes t = .sell ↔
        ((windowAt closes fa t).sum / fa < (windowAt closes sl t).sum / sl ∧
         (windowAt closes sl (t - 1)).sum / sl ≤ (windowAt closes fa (t - 1)).sum / fa))
      ∧ (dualMANext fa sl closes t = .hold ↔
        (¬((windowAt closes sl t).sum / sl < (windowAt closes fa t).sum / fa ∧
           (windowAt closes fa (t - 1)).sum / fa ≤ (windowAt closes sl (t - 1)).sum / sl) ∧
         ¬((windowAt closes fa t).sum / fa < (windowAt closes sl t).sum / sl ∧
           (windowAt closes sl (t - 1)).sum / sl ≤ (windowAt closes fa (t - 1)).sum / fa)))) := by
  intro fa sl closes t hfa hfs hst hlen
  have hft : rollingMeanAt closes fa t = .fin ((windowAt closes fa t).sum / fa) :=
    rollingMeanAt_fin _ _ _ hlen hfa (by omega)
  have hstm : rollingMeanAt closes sl t = .fin ((windowAt closes sl t).sum / sl) :=
    rollingMeanAt_fin _ _ _ hlen (by omega) (by omega)
  have hft1 : rollingMeanAt closes fa (t - 1) = .fin ((windowAt closes fa (t - 1)).sum / fa) :=
    rollingMeanAt_fin _ _ _ (by omega) hfa (by omega)
  have hst1 : rollingMeanAt closes sl (t - 1) = .fin ((windowAt closes sl (t - 1)).sum / sl) :=
    rollingMeanAt_fin _ _ _ (by omega) (by omega) (by omega)
  simp only [dualMANext, hft, hstm, hft1, hst1, pgt, pge, plt_fin_fin, ple_fin_fin,
    Bool.and_eq_true, decide_eq_true_eq]
  split_ifs with h1 h2 <;> refine ⟨?_, ?_, ?_⟩ <;> simp_all <;>
    try (intro hc; linarith)

theorem c5_dual_ma_cross_iff_witness :
    dualMANext 2 3 buyCloses 99 = .buy :=
  (c5_dual_ma_cross_iff 2 3 buyCloses 99 (by omega) (by omega) (by omega)
      (by simp [buyCloses])).1.mpr
    ⟨of_decide_eq_true (by with_unfolding_all rfl),
     of_decide_eq_true (by with_unfolding_all rfl)⟩

/-- C6: past warm-up, `BreakoutStrategy` compares the close at bar `t`
against the rolling `period`-bar high/low of a window that excludes bar
`t` (the window is `highs.take t` past-dropped to the last `period` bars,
i.e. bars `t - period .. t - 1`): it buys exactly when the close exceeds
that prior high while flat, and sells exactly when the close falls below
the prior low while in a position. -/
theorem c6_breakout_prior_window :
    ∀ (period : Nat) (pos : Bool) (highs lows closes : List ℚ) (t : Nat),
      0 < period → period ≤ t → t < closes.length → t ≤ highs.length →
      t ≤ lows.length →
      ((breakoutNext period pos highs lows closes t = .buy ↔
        (listMax ((highs.take t).drop (t - period)) < closes.getD t 0 ∧ pos = false))
      ∧ (breakoutNext period pos highs lows closes t = .sell ↔
        (closes.getD t 0 < listMin ((lows.take t).drop (t - period)) ∧ pos = true))) := by
  intro period pos highs lows closes t hp hpt hc hh hl
  have ht1 : t - 1 + 1 = t := by omega
  have hup : rollingMaxAt highs period (t - 1) =
      .fin (listMax ((highs.take t).drop (t - period))) := by
    have := rollingMaxAt_fin highs period (t - 1) (by omega) hp (by omega)
    rwa [windowAt, ht1] at this
  have hlo : rollingMinAt lows period (t - 1) =
      .fin (listMin ((lows.take t).drop (t - period))) := by
    have := rollingMinAt_fin lows period (t - 1) (by omega) hp (by omega)
    rwa [windowAt, ht1] at this
  simp only [breakoutNext, hup, hlo, pgt, plt_fin_fin, ple_fin_fin,
    Bool.and_eq_true, decide_eq_true_eq]
  cases pos <;>
    · split_ifs with h1 h2 <;> refine ⟨?_, ?_⟩ <;> simp_all

theorem c6_breakout_prior_window_witness :
    breakoutNext 2 false ([1, 2, 3, 10] : List ℚ) [1, 2, 3, 10] [1, 2, 3, 10] 3 = .buy :=
  (c6_breakout_prior_window 2 false [1, 2, 3, 10] [1, 2, 3, 10] [1, 2, 3, 10] 3
      (by omega) (by omega) (by simp) (by simp) (by simp)).1.mpr
    ⟨of_decide_eq_true (by with_unfolding_all rfl), rfl⟩

/-- C2 counterexample: strategy parameters are NOT isolated per detector
instance.  Constructing a first detector with `{short_ma: 2, long_ma: 3}`
over a bare class and then a second detector over the same class with
`{short_ma: 3, long_ma: 2}` changes the first detector's
`get_signal_state` on fixed data from `'BUY'` to `'SELL'`. -/
theorem c2_param_isolation_counterexample :
    getSignalState (initDetector ⟨some 2, some 3, none, none, none⟩ clsNone) buyData
      = .buySig ∧
    getSignalState
        (initDetector ⟨some 3, some 2, none, none, none⟩
          (initDetector ⟨some 2, some 3, none, none, none⟩ clsNone)) buyData
      = .sellSig ∧
    Signal.sellSig ≠ Signal.buySig :=
  ⟨by with_unfolding_all rfl, by with_unfolding_all rfl, by decide⟩

/-- `setattr` override composition: when the second parameter dict sets
every key the first one set, applying both equals applying the second
alone (last write wins on the shared class attributes). -/
lemma initDetector_last_write_wins (c : ClassAttrs) (p1 p2 : Params)
    (h1 : p1.short_ma.isSome = true → p2.short_ma.isSome = true)
    (h2 : p1.long_ma.isSome = true → p2.long_ma.isSome = true)
    (h3 : p1.rsi_period.isSome = true → p2.rsi_period.isSome = true)
    (h4 : p1.rsi_upper.isSome = true → p2.rsi_upper.isSome = true)
    (h5 : p1.rsi_lower.isSome = true → p2.rsi_lower.isSome = true) :
    initDetector p2 (initDetector p1 c) = initDetector p2 c := by
  have key : ∀ {α : Type} (x : Option α) (a b : Option α),
      (a.isSome = true → b.isSome = true) →
      overrideO b (overrideO a x) = overrideO b x := by
    intro α x a b h
    cases b with
    | some v => rfl
    | none =>
      cases a with
      | some w => simp [overrideO, Option.isSome] at h
      | none => rfl
  unfold initDetector
  simp only [key _ _ _ h1, key _ _ _ h2, key _ _ _ h3, key _ _ _ h4, key _ _ _ h5]

/-- C2 (amended): `SignalDetector.__init__` configures the shared strategy
class by `setattr`, so detectors over the same class share parameters and
the last construction wins: when the second parameter dict sets every key
the first one set, the class state after both constructions equals the
state produced by the second construction alone, and hence the first
detector's `get_signal_state` thereafter computes under the second
detector's parameters (not its own `P1`). -/
theorem c2_shared_class_attrs_last_write_wins :
    (∀ (c : ClassAttrs) (p1 p2 : Params),
      (p1.short_ma.isSome = true → p2.short_ma.isSome = true) →
      (p1.long_ma.isSome = true → p2.long_ma.isSome = true) →
      (p1.rsi_period.isSome = true → p2.rsi_period.isSome = true) →
      (p1.rsi_upper.isSome = true → p2.rsi_upper.isSome = true) →
      (p1.rsi_lower.isSome = true → p2.rsi_lower.isSome = true) →
      initDetector p2 (initDetector p1 c) = initDetector p2 c)
    ∧ (∀ (c : ClassAttrs) (p1 p2 : Params) (data : MarketData),
      (p1.short_ma.isSome = true → p2.short_ma.isSome = true) →
      (p1.long_ma.isSome = true → p2.long_ma.isSome = true) →
      (p1.rsi_period.isSome = true → p2.rsi_period.isSome = true) →
      (p1.rsi_upper.isSome = true → p2.rsi_upper.isSome = true) →
      (p1.rsi_lower.isSome = true → p2.rsi_lower.isSome = true) →
      getSignalState (initDetector p2 (initDetector p1 c)) data =
        getSignalState (initDetector p2 c) data) := by
  refine ⟨fun c p1 p2 h1 h2 h3 h4 h5 =>
    initDetector_last_write_wins c p1 p2 h1 h2 h3 h4 h5, ?_⟩
  intro c p1 p2 data h1 h2 h3 h4 h5
  rw [initDetector_last_write_wins c p1 p2 h1 h2 h3 h4 h5]

theorem c2_shared_class_attrs_witness :
    getSignalState
        (initDetector ⟨some 3, some 2, none, none, none⟩
          (initDetector ⟨some 2, some 3, none, none, none⟩ clsNone)) buyData =
      getSignalState (initDetector ⟨some 3, some 2, none, none, none⟩ clsNone) buyData :=
  c2_shared_class_attrs_last_write_wins.2 clsNone
    ⟨some 2, some 3, none, none, none⟩ ⟨some 3, some 2, none, none, none⟩ buyData
    (fun _ => rfl) (fun _ => rfl) (fun h => h) (fun h => h) (fun h => h)

/-- C3 counterexample: on a constant-price segment past warm-up the
average loss is 0, but the returned RSI is NaN (the source computes
`0/0 = NaN` and lets it propagate), not 100. -/
theorem c3_rsi_zero_loss_counterexample :
    rollingMeanAt (lossSeries constPrices) 14 15 = .fin 0 ∧
    calculateRsiAt constPrices 14 15 = .nan ∧ PFloat.nan ≠ .fin 100 :=
  ⟨by with_unfolding_all rfl, by with_unfolding_all rfl, by decide⟩

/-- C3 (amended): the RSI is `100 - 100/(1+RS)` with
`RS = avg_gain/avg_loss` over rolling means of the positive and
negated-negative price changes; at an index where `avg_loss = 0` the
result is 100 exactly when `avg_gain` is positive (`RS = +inf`), while on
a constant-price segment (`avg_gain = 0` as well) the result is NaN
(`0/0` propagates, the open question noted by the spec). -/
theorem c3_rsi_zero_loss_policy :
    ∀ (prices : List ℚ) (period i : Nat) (g : ℚ),
      rollingMeanAt (lossSeries prices) period i = .fin 0 →
      rollingMeanAt (gainSeries prices) period i = .fin g →
      (0 < g → calculateRsiAt prices period i = .fin 100) ∧
      (g = 0 → calculateRsiAt prices period i = .nan) := by
  intro prices period i g hloss hgain
  unfold calculateRsiAt
  rw [hloss, hgain]
  constructor
  · intro hg
    have h1 : pdiv (.fin g) (.fin 0) = PFloat.inf := by
      simp [pdiv, hg, ne_of_gt hg]
    rw [h1]
    show psub (.fin 100) (pdiv (.fin 100) (padd (.fin 1) PFloat.inf)) = .fin 100
    simp [padd, pdiv, psub, pneg]
  · intro hg
    subst hg
    have h1 : pdiv (.fin 0) (.fin 0) = PFloat.nan := by simp [pdiv]
    rw [h1]
    rfl

theorem c3_rsi_zero_loss_policy_witness :
    calculateRsiAt upPrices 14 15 = .fin 100 ∧
    calculateRsiAt constPrices 14 15 = .nan :=
  ⟨(c3_rsi_zero_loss_policy upPrices 14 15 1 (by with_unfolding_all rfl)
      (by with_unfolding_all rfl)).1 (by norm_num),
   (c3_rsi_zero_loss_policy constPrices 14 15 0 (by with_unfolding_all rfl)
      (by with_unfolding_all rfl)).2 rfl⟩

lemma vStep_length_mono (ranges : List (String × ParamRange))
    (errs : List String) (pv : String × ℚ) :
    errs.length ≤ (vStep ranges errs pv).length := by
  unfold vStep
  cases h : ranges.lookup pv.1 with
  | none => simp
  | some r =>
    obtain ⟨mn, mx⟩ := r
    cases mn <;> cases mx <;> dsimp only <;> (try split_ifs) <;>
      (try simp only [List.length_append, List.length_cons, List.length_nil]) <;> omega

lemma foldl_vStep_length_mono (ranges : List (String × ParamRange)) :
    ∀ (ps : List (String × ℚ)) (acc : List String),
      acc.length ≤ (ps.foldl (vStep ranges) acc).length := by
  intro ps
  induction ps with
  | nil => intro acc; simp
  | cons p rest ih =>
    intro acc
    calc acc.length ≤ (vStep ranges acc p).length := vStep_length_mono _ _ _
    _ ≤ _ := ih _

lemma vStep_min_violation (ranges : List (String × ParamRange))
    (errs : List String) (pn : String) (pv : ℚ) (r : ParamRange) (m : ℚ)
    (hlk : ranges.lookup pn = some r) (hmin : r.pmin = some m) (hlt : pv < m) :
    errs.length + 1 ≤ (vStep ranges errs (pn, pv)).length := by
  unfold vStep
  obtain ⟨mn, mx⟩ := r
  simp only [ParamRange.pmin] at hmin
  subst hmin
  simp only [hlk]
  try dsimp only
  rw [if_pos hlt]
  cases mx with
  | none =>
    simp only [List.length_append, List.length_cons, List.length_nil]
    omega
  | some m2 =>
    dsimp only
    split_ifs <;> simp only [List.length_append, List.length_cons, List.length_nil] <;> omega

/-- C7 counterexample: an out-of-bounds parameter assignment is NOT
rejected.  `short_ma = 1` violates the min bound 5 that the `STRATEGIES`
metadata declares for `TrendFollowing`, yet `validate_params` (which only
consults `get_param_ranges()`, the empty dict of `BaseStrategy`) reports
an empty error list, and `BacktestingBot.run_backtest` — which performs no
validation at all — processes every bar of a 3-bar series and returns
results. -/
theorem c7_invalid_params_not_rejected_counterexample :
    validateParams baseParamRanges [("short_ma", 1), ("long_ma", 200)] = [] ∧
    (trendFollowingDeclaredBounds.lookup "short_ma" = some ⟨some 5, some 100⟩ ∧
      (1 : ℚ) < 5) ∧
    runBacktest 1 200 [100, 101, 102] = some [.hold, .hold, .hold] :=
  ⟨rfl, ⟨rfl, by norm_num⟩, by with_unfolding_all rfl⟩

/-- C7 (amended): `validate_params` flags a parameter only when it appears
in `strategy_class.get_param_ranges()`; it does report a non-empty error
list whenever a supplied parameter is below a min bound declared there,
but `BaseStrategy.get_param_ranges()` is the empty dict and no strategy
overrides it, so validation reports no error for any assignment; and
`BacktestingBot.run_backtest` never invokes validation, so a backtest
with out-of-bounds parameters still processes every bar of a non-empty
series. -/
theorem c7_validation_vacuous_and_unused :
    (∀ params : List (String × ℚ), validateParams baseParamRanges params = [])
    ∧ (∀ (ranges : List (String × ParamRange)) (params : List (String × ℚ))
        (pn : String) (pv : ℚ) (r : ParamRange) (m : ℚ),
        (pn, pv) ∈ params → ranges.lookup pn = some r → r.pmin = some m →
        pv < m → validateParams ranges params ≠ [])
    ∧ (∀ (sm lm : Nat) (data : List ℚ), data ≠ [] →
        ∃ acts, runBacktest sm lm data = some acts ∧ acts.length = data.length) := by
  refine ⟨?_, ?_, ?_⟩
  · have hgen : ∀ (ps : List (String × ℚ)) (acc : List String),
        ps.foldl (vStep baseParamRanges) acc = acc := by
      intro ps
      induction ps with
      | nil => intro acc; rfl
      | cons p rest ih =>
        intro acc
        have hstep : vStep baseParamRanges acc p = acc := by
          unfold vStep baseParamRanges
          rfl
        rw [List.foldl_cons, hstep, ih]
    intro params
    exact hgen params []
  · intro ranges params pn pv r m hmem hlk hmin hlt
    obtain ⟨s, t2, rfl⟩ := List.append_of_mem hmem
    have h1 : 1 ≤ (vStep ranges (s.foldl (vStep ranges) []) (pn, pv)).length := by
      have := vStep_min_violation ranges (s.foldl (vStep ranges) []) pn pv r m hlk hmin hlt
      omega
    have h2 : 1 ≤ (validateParams ranges (s ++ (pn, pv) :: t2)).length := by
      unfold validateParams
      rw [List.foldl_append, List.foldl_cons]
      exact le_trans h1 (foldl_vStep_length_mono ranges t2 _)
    intro hnil
    rw [hnil] at h2
    simp at h2
  · intro sm lm data hne
    refine ⟨(List.range data.length).map (fun t => tfNext sm lm data t), ?_, by simp⟩
    unfold runBacktest
    rw [if_neg hne]

theorem c7_validation_vacuous_and_unused_witness :
    validateParams trendFollowingDeclaredBounds [("short_ma", 1)] ≠ [] ∧
    ∃ acts, runBacktest 1 200 [(100 : ℚ), 101, 102] = some acts ∧ acts.length = 3 :=
  ⟨c7_validation_vacuous_and_unused.2.1 trendFollowingDeclaredBounds
      [("short_ma", 1)] "short_ma" 1 ⟨some 5, some 100⟩ 5 (by simp) rfl rfl
      (by norm_num),
   c7_validation_vacuous_and_unused.2.2 1 200 [100, 101, 102] (by simp)⟩
